import Mathlib

/-!
Shallow embedding of the rlox tree-walking interpreter (scanner, expression
parser, environment, evaluator) from the repository sources, together with
theorems settling the frozen claims about it.

Modelling conventions, applied uniformly:
* Rust `f32` numbers are modelled as `ℚ`; no claim below inspects
  floating-point rounding behaviour, only the type discipline of operators.
* `DefaultHasher` name hashes (`Environment::hash_name`) are modelled as the
  name itself, i.e. as a collision-free hash.  The source compares hashes
  where the model compares names.
* `Rc<RefCell<EvalValue>>` cells are modelled by indices into an explicit
  store (`Store`, a list of values); cloning an environment clones the cell
  indices and therefore shares the cells, exactly as `Rc::clone` does.
* The interpreter and the parser both recurse unboundedly at run time
  (loops, user-level recursion); every evaluator/parser function therefore
  takes an explicit fuel argument and fails with the distinguished
  `Err.fuel` / `ParseErr.fuel` outcome when it runs out.  No claim confuses
  that outcome with an error produced by the program's own code paths.
* `token.rs` is not present under `src/`; `Token`, `TokenType` and the token
  rendering used in parser error strings are reconstructed from their uses
  in `scanner.rs`, `parser.rs` and `interpreter.rs`.
-/

/-- Token kinds, reconstructed from token.rs's uses across the sources
(token.rs itself is not under src/). -/
inductive TokenType where
  | LeftParen
  | RightParen
  | LeftBrace
  | RightBrace
  | Comma
  | Dot
  | Minus
  | Plus
  | SemiColon
  | Slash
  | Star
  | Bang
  | BangEqual
  | Equal
  | EqualEqual
  | Greater
  | GreaterEqual
  | Less
  | LessEqual
  | Identifier (name : String)
  | Str (s : String)
  | Number (value : ℚ)
  | And
  | Class
  | Else
  | False
  | Fun
  | For
  | If
  | Nil
  | Or
  | Print
  | Return
  | Super
  | This
  | True
  | Var
  | While
  | Eof
deriving DecidableEq

/-- A scanned token: kind plus the source line it came from. -/
structure Token where
  token_type : TokenType
  line : Nat
deriving DecidableEq

/-- Token::new. -/
def Token.new (token_type : TokenType) (line : Nat) : Token :=
  ⟨token_type, line⟩

/-- Expression nodes (expr.rs).  `Binary` keeps the whole operator token, as
the source does; `stack_idx` is the resolver-stamped slot annotation
(`Cell<Option<usize>>` in the source). -/
inductive Expr where
  | Bool (b : Bool)
  | Str (s : String)
  | Number (n : ℚ)
  | Binary (left : Expr) (operator : Token) (right : Expr)
  | Grouping (e : Expr)
  | LogicalNot (e : Expr)
  | UnaryNegate (e : Expr)
  | Variable (name : String) (line : Nat) (stack_idx : Option Nat)
  | Assignment (target : String) (line : Nat) (expr : Expr) (stack_idx : Option Nat)
  | Call (callee : Expr) (line : Nat) (arguments : List Expr)
  | Nil

mutual
/-- Statement nodes (stmt.rs).  The interpreter evaluates `Var` initializers
unconditionally, so the initializer is carried directly. -/
inductive Stmt where
  | Expr (e : Expr)
  | Print (exprs : List Expr)
  | If (condition : Expr) (true_branch : Stmt) (else_branch : Option Stmt)
  | Block (statements : List Stmt)
  | Var (name : String) (line : Nat) (initializer : Expr)
  | While (condition : Expr) (body : Stmt)
  | Function (f : FunctionDecl)
  | Return (e : Expr)

/-- stmt::Function: a function declaration (name, parameters, body, line). -/
inductive FunctionDecl where
  | mk (name : String) (parameters : List String) (statements : List Stmt) (line : Nat)
end

/-- Accessor for stmt::Function's name. -/
def FunctionDecl.name : FunctionDecl → String
  | .mk n _ _ _ => n

/-- Accessor for stmt::Function's parameter list. -/
def FunctionDecl.parameters : FunctionDecl → List String
  | .mk _ ps _ _ => ps

/-- Accessor for stmt::Function's body statements. -/
def FunctionDecl.statements : FunctionDecl → List Stmt
  | .mk _ _ ss _ => ss

/-- Function::arity: the number of declared parameters. -/
def FunctionDecl.arity (f : FunctionDecl) : Nat :=
  f.parameters.length

/-- Environment::hash_name, modelled as a collision-free hash: the name
itself stands for its 64-bit hash. -/
def hash_name (name : String) : String :=
  name

/-- environment.rs StackValue: the stored hash of the binding's name plus the
shared value cell, modelled as an index into the `Store`. -/
structure StackValue where
  hash : String
  value : Nat
deriving DecidableEq

/-- environment.rs Environment: a binding stack plus scope-boundary marks. -/
structure Environment where
  values : List StackValue
  scope_stack : List Nat
deriving DecidableEq

/-- Environment::new. -/
def Environment.new : Environment :=
  ⟨[], []⟩

/-- Environment::new_capture_env: share the enclosing bindings (the cell
indices are cloned, so the cells themselves are shared) and start one scope
boundary at the end of the snapshot. -/
def Environment.new_capture_env (enclosing : Environment) : Environment :=
  ⟨enclosing.values, [enclosing.values.length]⟩

/-- Environment::find_eval_value: first hash match when walking
`values[stack_bottom_idx..]` back to front. -/
def Environment.find_eval_value (env : Environment) (name : String)
    (stack_bottom_idx : Nat) : Option StackValue :=
  ((env.values.drop stack_bottom_idx).reverse).find? (fun sv => sv.hash = hash_name name)

mutual
/-- eval_value.rs EvalValue: the runtime value variants. -/
inductive EvalValue where
  | Number (n : ℚ)
  | Str (s : String)
  | Bool (b : Bool)
  | Function (f : LoxFunction)
  | Nil

/-- eval_value.rs LoxFunction: the shared declaration plus the optional
captured environment. -/
inductive LoxFunction where
  | mk (declaration : FunctionDecl) (closure : Option Environment)
end

/-- Accessor for LoxFunction's declaration. -/
def LoxFunction.declaration : LoxFunction → FunctionDecl
  | .mk d _ => d

/-- Accessor for LoxFunction's captured environment. -/
def LoxFunction.closure : LoxFunction → Option Environment
  | .mk _ c => c

/-- The heap of shared value cells (each `Rc<RefCell<EvalValue>>` is an index
into this list; a fresh `Rc::new` appends a cell). -/
abbrev Store := List EvalValue

/-- Environment::get_var: innermost-outward search over the whole binding
stack; dereferences the found cell (clone of the cell's current value). -/
def Environment.get_var (env : Environment) (store : Store) (name : String) :
    Option EvalValue :=
  (env.find_eval_value name 0).map (fun sv => store.getD sv.value EvalValue.Nil)

/-- Environment::set_var: innermost-outward search over the whole binding
stack; if found, mutate the existing cell in place (visible through every
sharer of the cell); otherwise push a new binding with a fresh cell. -/
def Environment.set_var (env : Environment) (store : Store) (name : String)
    (value : EvalValue) : Environment × Store :=
  match env.find_eval_value name 0 with
  | some sv => (env, store.set sv.value value)
  | none =>
      ({ env with values := env.values ++ [⟨hash_name name, store.length⟩] },
       store ++ [value])

/-- Environment::define_var: search only above the active scope boundary;
if found, repoint that binding at a fresh cell holding the value; otherwise
push a new binding. -/
def Environment.define_var (env : Environment) (store : Store) (name : String)
    (value : EvalValue) : Environment × Store :=
  let bottom := env.scope_stack.getLast?.getD 0
  let suffix := env.values.drop bottom
  match suffix.reverse.findIdx? (fun sv => sv.hash = hash_name name) with
  | some j =>
      let pos := bottom + (suffix.length - 1 - j)
      ({ env with values := env.values.set pos ⟨hash_name name, store.length⟩ },
       store ++ [value])
  | none =>
      ({ env with values := env.values ++ [⟨hash_name name, store.length⟩] },
       store ++ [value])

/-- Environment::push_scope: record the current binding-stack length. -/
def Environment.push_scope (env : Environment) : Environment :=
  { env with scope_stack := env.scope_stack ++ [env.values.length] }

/-- Environment::pop_scope: truncate the binding stack to the most recently
recorded mark.  Note the source leaves `scope_stack` itself untouched. -/
def Environment.pop_scope (env : Environment) : Environment :=
  { env with values := env.values.take (env.scope_stack.getLast?.getD 0) }

/-- Every cell index reachable from the environment points into the store.
This holds for every environment the interpreter actually builds (in Rust it
is enforced by `Rc` ownership). -/
def EnvWF (env : Environment) (store : Store) : Prop :=
  ∀ sv ∈ env.values, sv.value < store.length

/-- Interpreter failure modes: a runtime error string from the program's own
error paths, or exhaustion of the model's explicit fuel. -/
inductive Err where
  | runtime (msg : String)
  | fuel
deriving DecidableEq

/-- The mutable state threaded through the interpreter: the global
environment, the optional local (activation) environment of the running
function, the cell store, and the values printed so far (print formatting is
not modelled; the claims never inspect it). -/
structure State where
  globals : Environment
  locals : Option Environment
  store : Store
  output : List EvalValue

/-- InterpreterContext::is_truthy. -/
def is_truthy (eval_value : EvalValue) : Bool :=
  match eval_value with
  | .Number n => decide (n ≠ 0)
  | .Str s => !s.isEmpty
  | .Bool b => b
  | .Function _ => true
  | .Nil => false

/-- Result of evaluating an expression: the updated state and the value. -/
abbrev EvalRes := Except Err (State × EvalValue)

/-- Result of executing a statement: the updated state and the optional
early-return value (`some` means a `Return` was hit). -/
abbrev StmtRes := Except Err (State × Option EvalValue)

mutual

/-- ExprVisitor for InterpreterContext (interpreter.rs): expression
evaluation.  The interpreter's `local_environment.get`/`set` calls are
environment.rs's `get_var`/`set_var`. -/
def evalExpr (fuel : Nat) (st : State) (e : Expr) : EvalRes :=
  match fuel with
  | 0 => .error .fuel
  | fuel + 1 =>
    match e with
    | .Bool b => .ok (st, .Bool b)
    | .Str s => .ok (st, .Str s)
    | .Number n => .ok (st, .Number n)
    | .Nil => .ok (st, .Nil)
    | .Grouping g => evalExpr fuel st g
    | .LogicalNot inner =>
      match evalExpr fuel st inner with
      | .error er => .error er
      | .ok (st1, v) => .ok (st1, .Bool (!is_truthy v))
    | .UnaryNegate inner =>
      match evalExpr fuel st inner with
      | .error er => .error er
      | .ok (st1, v) =>
        match v with
        | .Number n => .ok (st1, .Number (-n))
        | _ => .error (.runtime "Unary negate expected number")
    | .Variable name line _stack_idx =>
      -- visit_variable: the resolver's stack_idx annotation is never read;
      -- name search in the local environment first, then the global one.
      match st.locals with
      | some local_environment =>
        match local_environment.get_var st.store name with
        | some v => .ok (st, v)
        | none =>
          match st.globals.get_var st.store name with
          | some v => .ok (st, v)
          | none =>
            .error (.runtime ("Undefined variable " ++ name ++ " at line " ++ toString line))
      | none =>
        match st.globals.get_var st.store name with
        | some v => .ok (st, v)
        | none =>
          .error (.runtime ("Undefined variable " ++ name ++ " at line " ++ toString line))
    | .Assignment target line inner _stack_idx =>
      match evalExpr fuel st inner with
      | .error er => .error er
      | .ok (st1, value) =>
        let is_target_in_local_env :=
          match st1.locals with
          | some local_environment => (local_environment.get_var st1.store target).isSome
          | none => false
        if is_target_in_local_env then
          let es := (st1.locals.getD Environment.new).set_var st1.store target value
          .ok ({ st1 with locals := some es.1, store := es.2 }, value)
        else if (st1.globals.get_var st1.store target).isSome then
          let es := st1.globals.set_var st1.store target value
          .ok ({ st1 with globals := es.1, store := es.2 }, value)
        else
          .error (.runtime ("Undefined variable " ++ target ++ " at line " ++ toString line))
    | .Binary l operator r =>
      -- visit_binary: both operands are evaluated eagerly, before the
      -- operator dispatch; the And/Or arms then evaluate again.
      match evalExpr fuel st l with
      | .error er => .error er
      | .ok (st1, left) =>
        match evalExpr fuel st1 r with
        | .error er => .error er
        | .ok (st2, right) =>
          match operator.token_type with
          | .Less =>
            match left, right with
            | .Number a, .Number b => .ok (st2, .Bool (decide (a < b)))
            | _, _ => .error (.runtime "Must be numbers")
          | .LessEqual =>
            match left, right with
            | .Number a, .Number b => .ok (st2, .Bool (decide (a ≤ b)))
            | _, _ => .error (.runtime "Must be numbers")
          | .Greater =>
            match left, right with
            | .Number a, .Number b => .ok (st2, .Bool (decide (a > b)))
            | _, _ => .error (.runtime "Must be numbers")
          | .GreaterEqual =>
            match left, right with
            | .Number a, .Number b => .ok (st2, .Bool (decide (a ≥ b)))
            | _, _ => .error (.runtime "Must be numbers")
          | .EqualEqual =>
            match left, right with
            | .Number a, .Number b => .ok (st2, .Bool (decide (a = b)))
            | _, _ => .error (.runtime "Must be numbers")
          | .BangEqual =>
            match left, right with
            | .Number a, .Number b => .ok (st2, .Bool (decide (a ≠ b)))
            | _, _ => .error (.runtime "Must be numbers")
          | .And =>
            match evalExpr fuel st2 l with
            | .error er => .error er
            | .ok (st3, left2) =>
              if !is_truthy left2 then .ok (st3, left2)
              else evalExpr fuel st3 r
          | .Or =>
            match evalExpr fuel st2 l with
            | .error er => .error er
            | .ok (st3, left2) =>
              if is_truthy left2 then .ok (st3, left2)
              else evalExpr fuel st3 r
          | .Minus =>
            match left, right with
            | .Number a, .Number b => .ok (st2, .Number (a - b))
            | _, _ => .error (.runtime "Must be numbers")
          | .Slash =>
            match left, right with
            | .Number a, .Number b => .ok (st2, .Number (a / b))
            | _, _ => .error (.runtime "Must be numbers")
          | .Star =>
            match left, right with
            | .Number a, .Number b => .ok (st2, .Number (a * b))
            | _, _ => .error (.runtime "Must be numbers")
          | .Plus =>
            match left, right with
            | .Number a, .Number b => .ok (st2, .Number (a + b))
            | .Str a, .Str b => .ok (st2, .Str (a ++ b))
            | _, _ => .error (.runtime "Must be numbers or string")
          | _ => .error (.runtime "Unsupported binary operator")
    | .Call callee line arguments =>
      match evalExpr fuel st callee with
      | .error er => .error er
      | .ok (st1, calleeValue) =>
        match calleeValue with
        | .Function f =>
          if f.declaration.arity ≠ arguments.length then
            .error (.runtime ("Function expected " ++ toString f.declaration.arity ++
              " but got " ++ toString arguments.length ++ ", at line " ++ toString line))
          else
            match evalArgs fuel st1 arguments with
            | .error er => .error er
            | .ok (st2, argValues) => callFunction fuel st2 f argValues
        | _ => .error (.runtime ("Not a callable object at line " ++ toString line))

/-- The argument-evaluation loop of visit_call: evaluate each argument in
order, propagating the first error. -/
def evalArgs (fuel : Nat) (st : State) (arguments : List Expr) :
    Except Err (State × List EvalValue) :=
  match fuel with
  | 0 => .error .fuel
  | fuel + 1 =>
    match arguments with
    | [] => .ok (st, [])
    | a :: rest =>
      match evalExpr fuel st a with
      | .error er => .error er
      | .ok (st1, v) =>
        match evalArgs fuel st1 rest with
        | .error er => .error er
        | .ok (st2, vs) => .ok (st2, v :: vs)

/-- LoxFunction::call (eval_value.rs): build the activation environment from
the captured one (fresh if none), bind the callee's own name, bind the
parameters to the argument values, run the body with that local
environment, and turn an early return into the call's value (Nil if none).
The caller's own local environment is untouched. -/
def callFunction (fuel : Nat) (st : State) (lox_function : LoxFunction)
    (arguments : List EvalValue) : EvalRes :=
  match fuel with
  | 0 => .error .fuel
  | fuel + 1 =>
    let environment :=
      match lox_function.closure with
      | none => Environment.new
      | some closure => Environment.new_capture_env closure
    -- allow recursion
    let es1 := environment.set_var st.store lox_function.declaration.name
      (.Function lox_function)
    let es2 := bind_parameters es1.1 es1.2
      (lox_function.declaration.parameters.zip arguments)
    match executeMany fuel { st with locals := some es2.1, store := es2.2 }
        lox_function.declaration.statements with
    | .error er => .error er
    | .ok (st1, some result) => .ok ({ st1 with locals := st.locals }, result)
    | .ok (st1, none) => .ok ({ st1 with locals := st.locals }, .Nil)

/-- The parameter-binding loop of LoxFunction::call: sequential `set_var`
of each (parameter, argument) pair. -/
def bind_parameters (env : Environment) (store : Store) :
    List (String × EvalValue) → Environment × Store
  | [] => (env, store)
  | pa :: rest =>
    let es := env.set_var store pa.1 pa.2
    bind_parameters es.1 es.2 rest

/-- StmtVisitor for InterpreterContext (interpreter.rs): statement
execution. -/
def execute (fuel : Nat) (st : State) (s : Stmt) : StmtRes :=
  match fuel with
  | 0 => .error .fuel
  | fuel + 1 =>
    match s with
    | .Expr e =>
      match evalExpr fuel st e with
      | .error er => .error er
      | .ok (st1, _) => .ok (st1, none)
    | .Print exprs => evalPrints fuel st exprs
    | .If condition true_branch else_branch =>
      match evalExpr fuel st condition with
      | .error er => .error er
      | .ok (st1, cond) =>
        if is_truthy cond then
          match execute fuel st1 true_branch with
          | .error er => .error er
          | .ok (st2, some r) => .ok (st2, some r)
          | .ok (st2, none) => .ok (st2, none)
        else
          match else_branch with
          | some branch =>
            match execute fuel st1 branch with
            | .error er => .error er
            | .ok (st2, some r) => .ok (st2, some r)
            | .ok (st2, none) => .ok (st2, none)
          | none => .ok (st1, none)
    | .Block statements => executeMany fuel st statements
    | .Var name _line initializer =>
      match evalExpr fuel st initializer with
      | .error er => .error er
      | .ok (st1, value) =>
        match st1.locals with
        | some local_environment =>
          let es := local_environment.set_var st1.store name value
          .ok ({ st1 with locals := some es.1, store := es.2 }, none)
        | none =>
          let es := st1.globals.set_var st1.store name value
          .ok ({ st1 with globals := es.1, store := es.2 }, none)
    | .While condition body =>
      match evalExpr fuel st condition with
      | .error er => .error er
      | .ok (st1, cond) =>
        if !is_truthy cond then .ok (st1, none)
        else
          match execute fuel st1 body with
          | .error er => .error er
          | .ok (st2, some r) => .ok (st2, some r)
          | .ok (st2, none) => execute fuel st2 (.While condition body)
    | .Function f =>
      let lox_function : LoxFunction := ⟨f, st.locals⟩
      let es := st.globals.set_var st.store f.name (.Function lox_function)
      .ok ({ st with globals := es.1, store := es.2 }, none)
    | .Return e =>
      match evalExpr fuel st e with
      | .error er => .error er
      | .ok (st1, value) => .ok (st1, some value)

/-- The print loop of visit_print: evaluate each expression, recording the
printed value; the first error aborts the remaining prints. -/
def evalPrints (fuel : Nat) (st : State) (exprs : List Expr) : StmtRes :=
  match fuel with
  | 0 => .error .fuel
  | fuel + 1 =>
    match exprs with
    | [] => .ok (st, none)
    | e :: rest =>
      match evalExpr fuel st e with
      | .error er => .error er
      | .ok (st1, v) => evalPrints fuel { st1 with output := st1.output ++ [v] } rest

/-- InterpreterContext::execute_many: run statements in order; a non-empty
(Return) result stops the sequence and propagates. -/
def executeMany (fuel : Nat) (st : State) (stmts : List Stmt) : StmtRes :=
  match fuel with
  | 0 => .error .fuel
  | fuel + 1 =>
    match stmts with
    | [] => .ok (st, none)
    | s :: rest =>
      match execute fuel st s with
      | .error er => .error er
      | .ok (st1, some r) => .ok (st1, some r)
      | .ok (st1, none) => executeMany fuel st1 rest

end

/-- Scanner state (scanner.rs): the immutable source (as characters — the
source's byte positions are modelled as character positions), the cursor of
the `CharIndices` iterator, the current line, and the accumulated tokens and
errors. -/
structure ScanState where
  source : List Char
  pos : Nat
  line : Nat
  tokens : List Token
  errors : List String

/-- The scanner's `self.current`: the cursor position and character, or the
`(source.len(), '\0')` end-of-input sentinel.  `self.current == self.eof`
holds exactly when `pos ≥ source.length`, since positions are unique. -/
def ScanState.curr (st : ScanState) : Nat × Char :=
  if h : st.pos < st.source.length then (st.pos, st.source.get ⟨st.pos, h⟩)
  else (st.source.length, Char.ofNat 0)

/-- Scanner::advance: return `current` and step the cursor. -/
def ScanState.advance (st : ScanState) : (Nat × Char) × ScanState :=
  (st.curr, { st with pos := st.pos + 1 })

/-- The loop of Scanner::advance_while, structurally recursive on an
iteration bound.  Each iteration moves the cursor forward by one, so with
the bound `source.length - pos` the bound can only run out when the cursor
has reached the end of input — where the loop stops anyway; the bounded
loop is therefore exactly the source's unbounded loop. -/
def advance_while_go : Nat → (Char → Bool) → ScanState → Nat × ScanState
  | 0, _, st => (st.curr.1, st)
  | fuel + 1, predicate, st =>
    if h : st.pos < st.source.length then
      if predicate (st.source.get ⟨st.pos, h⟩) then
        advance_while_go fuel predicate { st with pos := st.pos + 1 }
      else (st.curr.1, st)
    else (st.curr.1, st)

/-- Scanner::advance_while: consume characters while the predicate holds and
the end of input is not reached; returns `self.current.0` afterwards. -/
def advance_while (predicate : Char → Bool) (st : ScanState) : Nat × ScanState :=
  advance_while_go (st.source.length - st.pos) predicate st

/-- Scanner::add_token. -/
def ScanState.add_token (st : ScanState) (token_type : TokenType) : ScanState :=
  { st with tokens := st.tokens ++ [Token.new token_type st.line] }

/-- Scanner::match_char: one-character lookahead operator disambiguation. -/
def ScanState.match_char (st : ScanState) (ch : Char) (matched_token : TokenType)
    (unmatched_token : TokenType) : TokenType × ScanState :=
  if st.curr.2 ≠ ch then (unmatched_token, st)
  else (matched_token, (st.advance).2)

/-- Scanner::string: consume up to the closing quote (or end of input), emit
a `Str` token holding the consumed characters, then step past the quote. -/
def ScanState.string (st : ScanState) : ScanState :=
  let start := st.curr.1
  let ws := advance_while (fun c => c ≠ '"') st
  let s := ((ws.2.source.drop start).take (ws.1 - start))
  (((ws.2).add_token (.Str (String.mk s))).advance).2

/-- Digit run to a natural number. -/
def digits_value (l : List Char) : Nat :=
  l.foldl (fun a c => a * 10 + (c.toNat - 48)) 0

/-- The numeric value of a scanned number lexeme (digits with an optional
single point): models the source's `f32` parse, which cannot fail on these
lexemes.  No claim inspects the numeric value. -/
def lexeme_value (l : List Char) : ℚ :=
  let i := l.findIdx (fun c => c = '.')
  if i < l.length then
    (digits_value (l.take i) : ℚ) + (digits_value (l.drop (i + 1)) : ℚ) / (10 ^ (l.drop (i + 1)).length)
  else (digits_value l : ℚ)

/-- Scanner::number: digit run, optional fraction when the point is followed
by a digit, error when an alphabetic character touches the number. -/
def ScanState.number (st : ScanState) (start : Nat) : ScanState :=
  let w1 := advance_while Char.isDigit st
  let st1 := w1.2
  let is_next_digit :=
    match st1.source.get? (st1.pos + 1) with
    | none => false
    | some c => c.isDigit
  let w2 :=
    if st1.curr.2 = '.' && is_next_digit then
      advance_while Char.isDigit (st1.advance).2
    else w1
  let st2 := w2.2
  let st3 :=
    if st2.curr.2.isAlpha then
      { st2 with errors := st2.errors ++
        ["Unexpected character \x27" ++ (st2.curr.2).toString ++ "\x27 after number at line " ++ toString st2.line] }
    else st2
  let s := (st3.source.drop start).take (w2.1 - start)
  st3.add_token (.Number (lexeme_value s))

/-- The scanner's keyword table. -/
def keyword_lookup (s : String) : Option TokenType :=
  match s with
  | "and" => some .And
  | "class" => some .Class
  | "else" => some .Else
  | "false" => some .False
  | "fun" => some .Fun
  | "for" => some .For
  | "if" => some .If
  | "nil" => some .Nil
  | "or" => some .Or
  | "print" => some .Print
  | "return" => some .Return
  | "super" => some .Super
  | "this" => some .This
  | "true" => some .True
  | "var" => some .Var
  | "while" => some .While
  | _ => none

/-- Scanner::identifier: alphanumeric/underscore run, keyword table lookup. -/
def ScanState.identifier (st : ScanState) (start : Nat) : ScanState :=
  let w := advance_while (fun c => c.isAlphanum || c = '_') st
  let s := String.mk ((w.2.source.drop start).take (w.1 - start))
  match keyword_lookup s with
  | some token_type => w.2.add_token token_type
  | none => w.2.add_token (.Identifier s)

/-- The single-character punctuation arms of Scanner::scan_token's match. -/
def single_char_token (c : Char) : Option TokenType :=
  if c = '(' then some .LeftParen
  else if c = ')' then some .RightParen
  else if c = '{' then some .LeftBrace
  else if c = '}' then some .RightBrace
  else if c = ',' then some .Comma
  else if c = '.' then some .Dot
  else if c = '-' then some .Minus
  else if c = '+' then some .Plus
  else if c = ';' then some .SemiColon
  else if c = '*' then some .Star
  else none

/-- The `match_char` operator arms of Scanner::scan_token's match: the pair
is (token when followed by `=`, token otherwise). -/
def two_char_token (c : Char) : Option (TokenType × TokenType) :=
  if c = '!' then some (.BangEqual, .Bang)
  else if c = '=' then some (.EqualEqual, .Equal)
  else if c = '>' then some (.GreaterEqual, .Greater)
  else if c = '<' then some (.LessEqual, .Less)
  else none

/-- The dispatch of Scanner::scan_token on the consumed character `ch`
(the state already stepped past it).  The arms are the source's match arms
in source order; the pattern arms that only add one token are grouped
through the two lookup tables above. -/
def scan_token_dispatch (ch : Nat × Char) (st : ScanState) : ScanState :=
  if ch.2 = '\n' then { st with line := st.line + 1 }
  else if ch.2.isWhitespace then st
  else if ch.2 = '/' then
    (if st.curr.2 = '/' then (advance_while (fun c => c ≠ '\n') st).2
     else st.add_token .Slash)
  else if ch.2 = '"' then st.string
  else
    match single_char_token ch.2 with
    | some t => st.add_token t
    | none =>
      match two_char_token ch.2 with
      | some mt =>
        let ts := st.match_char '=' mt.1 mt.2
        ts.2.add_token ts.1
      | none =>
        if ch.2.isDigit then st.number ch.1
        else if ch.2.isAlpha || ch.2 = '_' then st.identifier ch.1
        else
          { st with errors := st.errors ++
            ["Invalid character " ++ ch.2.toString ++ " at line " ++ toString st.line] }

/-- Scanner::scan_token: consume one character and dispatch on it. -/
def scan_token (st : ScanState) : ScanState :=
  scan_token_dispatch (st.advance).1 (st.advance).2


/-- The advance_while loop leaves everything but the cursor unchanged and
never moves the cursor backwards. -/
theorem advance_while_go_frame (fuel : Nat) (p : Char → Bool) (st : ScanState) :
    (advance_while_go fuel p st).2.source = st.source ∧
    st.pos ≤ (advance_while_go fuel p st).2.pos ∧
    (advance_while_go fuel p st).2.line = st.line ∧
    (advance_while_go fuel p st).2.tokens = st.tokens ∧
    (advance_while_go fuel p st).2.errors = st.errors := by
  induction fuel generalizing st with
  | zero => exact ⟨rfl, le_refl _, rfl, rfl, rfl⟩
  | succ fuel ih =>
    unfold advance_while_go
    split
    · split
      · obtain ⟨i1, i2, i3, i4, i5⟩ := ih { st with pos := st.pos + 1 }
        have i2a : st.pos + 1 ≤ (advance_while_go fuel p { st with pos := st.pos + 1 }).2.pos := i2
        exact ⟨i1, by omega, i3, i4, i5⟩
      · exact ⟨rfl, le_refl _, rfl, rfl, rfl⟩
    · exact ⟨rfl, le_refl _, rfl, rfl, rfl⟩

/-- advance_while leaves everything but the cursor unchanged and never moves
the cursor backwards. -/
theorem advance_while_frame (p : Char → Bool) (st : ScanState) :
    (advance_while p st).2.source = st.source ∧ st.pos ≤ (advance_while p st).2.pos ∧
    (advance_while p st).2.line = st.line ∧ (advance_while p st).2.tokens = st.tokens ∧
    (advance_while p st).2.errors = st.errors :=
  advance_while_go_frame (st.source.length - st.pos) p st

/-- string leaves the source unchanged and never moves the cursor
backwards. -/
theorem string_frame (st : ScanState) :
    (st.string).source = st.source ∧ st.pos ≤ (st.string).pos := by
  obtain ⟨i1, i2, -⟩ := advance_while_frame (fun c => c ≠ '"') st
  exact ⟨i1, Nat.le_succ_of_le i2⟩

/-- number leaves the source unchanged and never moves the cursor
backwards. -/
theorem number_frame (st : ScanState) (start : Nat) :
    (st.number start).source = st.source ∧ st.pos ≤ (st.number start).pos := by
  unfold ScanState.number
  dsimp only
  split
  · obtain ⟨a1, a2, -⟩ := advance_while_frame Char.isDigit st
    obtain ⟨b1, b2, -⟩ :=
      advance_while_frame Char.isDigit ((advance_while Char.isDigit st).2.advance).2
    have b1a : (advance_while Char.isDigit ((advance_while Char.isDigit st).2.advance).2).2.source =
        (advance_while Char.isDigit st).2.source := b1
    have b2a : (advance_while Char.isDigit st).2.pos + 1 ≤
        (advance_while Char.isDigit ((advance_while Char.isDigit st).2.advance).2).2.pos := b2
    split
    · refine ⟨?_, ?_⟩
      · show (advance_while Char.isDigit ((advance_while Char.isDigit st).2.advance).2).2.source =
          st.source
        exact b1a.trans a1
      · show st.pos ≤
          (advance_while Char.isDigit ((advance_while Char.isDigit st).2.advance).2).2.pos
        omega
    · refine ⟨?_, ?_⟩
      · show (advance_while Char.isDigit ((advance_while Char.isDigit st).2.advance).2).2.source =
          st.source
        exact b1a.trans a1
      · show st.pos ≤
          (advance_while Char.isDigit ((advance_while Char.isDigit st).2.advance).2).2.pos
        omega
  · obtain ⟨a1, a2, -⟩ := advance_while_frame Char.isDigit st
    split
    · refine ⟨?_, ?_⟩
      · show (advance_while Char.isDigit st).2.source = st.source
        exact a1
      · show st.pos ≤ (advance_while Char.isDigit st).2.pos
        exact a2
    · refine ⟨?_, ?_⟩
      · show (advance_while Char.isDigit st).2.source = st.source
        exact a1
      · show st.pos ≤ (advance_while Char.isDigit st).2.pos
        exact a2

/-- identifier leaves the source unchanged and never moves the cursor
backwards. -/
theorem identifier_frame (st : ScanState) (start : Nat) :
    (st.identifier start).source = st.source ∧ st.pos ≤ (st.identifier start).pos := by
  unfold ScanState.identifier
  dsimp only
  obtain ⟨i1, i2, -⟩ := advance_while_frame (fun c => c.isAlphanum || c = '_') st
  split
  · exact ⟨i1, i2⟩
  · exact ⟨i1, i2⟩

/-- match_char leaves the source unchanged and never moves the cursor
backwards. -/
theorem match_char_frame (st : ScanState) (c : Char) (mt ut : TokenType) :
    (st.match_char c mt ut).2.source = st.source ∧ st.pos ≤ (st.match_char c mt ut).2.pos := by
  unfold ScanState.match_char
  split
  · exact ⟨rfl, le_refl _⟩
  · exact ⟨rfl, Nat.le_succ _⟩

set_option maxHeartbeats 2000000 in
/-- scan_token_dispatch never changes the source and never moves the cursor
backwards. -/
theorem scan_token_dispatch_frame (ch : Nat × Char) (st : ScanState) :
    (scan_token_dispatch ch st).source = st.source ∧ st.pos ≤ (scan_token_dispatch ch st).pos := by
  unfold scan_token_dispatch
  split
  · exact ⟨rfl, le_refl _⟩
  split
  · exact ⟨rfl, le_refl _⟩
  split
  · split
    · obtain ⟨i1, i2, -⟩ := advance_while_frame (fun c => c ≠ '\n') st
      exact ⟨i1, i2⟩
    · exact ⟨rfl, le_refl _⟩
  split
  · exact string_frame st
  split
  · exact ⟨rfl, le_refl _⟩
  split
  · exact match_char_frame st '=' _ _
  split
  · exact number_frame st ch.1
  split
  · exact identifier_frame st ch.1
  · exact ⟨rfl, le_refl _⟩

/-- scan_token always consumes at least one character and never changes the
source. -/
theorem scan_token_progress (st : ScanState) :
    (scan_token st).source = st.source ∧ st.pos < (scan_token st).pos := by
  obtain ⟨h1, h2⟩ := scan_token_dispatch_frame (st.advance).1 (st.advance).2
  have h1a : (scan_token_dispatch (st.advance).1 (st.advance).2).source = st.source := h1
  have h2a : st.pos + 1 ≤ (scan_token_dispatch (st.advance).1 (st.advance).2).pos := h2
  unfold scan_token
  exact ⟨h1a, by omega⟩

/-- The `while self.current != self.eof` loop of Scanner::scan_tokens,
structurally recursive on an iteration bound.  By scan_token_progress every
iteration strictly advances the cursor through an unchanging source, so
with the bound `source.length - pos` the bound can only run out when the
cursor has passed the end of input — where the loop stops anyway; the
bounded loop is therefore exactly the source's unbounded loop. -/
def scan_tokens_go : Nat → ScanState → ScanState
  | 0, st => st
  | fuel + 1, st =>
    if st.pos < st.source.length then scan_tokens_go fuel (scan_token st) else st

/-- The scan_tokens loop, entered with its iteration bound. -/
def scan_tokens_loop (st : ScanState) : ScanState :=
  scan_tokens_go (st.source.length - st.pos) st

/-- Scanner::scan_tokens: run the loop, append the single Eof token, then
return all accumulated errors when any exist, else the tokens. -/
def scan_tokens (st : ScanState) : Except (List String) (List Token) :=
  let f := (scan_tokens_loop st).add_token .Eof
  if f.errors = [] then .ok f.tokens else .error f.errors

/-- scanner.rs scan: entry point. -/
def scan (source : List Char) : Except (List String) (List Token) :=
  scan_tokens { source := source, pos := 0, line := 1, tokens := [], errors := [] }

/-- Modelled from the spec: token.rs (with the Display implementation used
in parser error strings) is not under src/.  Tokens render as their lexeme;
no claim below depends on this rendering. -/
def Token.render (t : Token) : String :=
  match t.token_type with
  | .LeftParen => "("
  | .RightParen => ")"
  | .LeftBrace => "\x7b"
  | .RightBrace => "\x7d"
  | .Comma => ","
  | .Dot => "."
  | .Minus => "-"
  | .Plus => "+"
  | .SemiColon => ";"
  | .Slash => "/"
  | .Star => "*"
  | .Bang => "!"
  | .BangEqual => "!="
  | .Equal => "="
  | .EqualEqual => "=="
  | .Greater => ">"
  | .GreaterEqual => ">="
  | .Less => "<"
  | .LessEqual => "<="
  | .Identifier name => name
  | .Str s => s
  | .Number v => toString v
  | .And => "and"
  | .Class => "class"
  | .Else => "else"
  | .False => "false"
  | .Fun => "fun"
  | .For => "for"
  | .If => "if"
  | .Nil => "nil"
  | .Or => "or"
  | .Print => "print"
  | .Return => "return"
  | .Super => "super"
  | .This => "this"
  | .True => "true"
  | .Var => "var"
  | .While => "while"
  | .Eof => "EOF"

/-- Parser failure modes: the source's error-string list, or exhaustion of
the model's explicit fuel. -/
inductive ParseErr where
  | errs (msgs : List String)
  | fuel
deriving DecidableEq

/-- Result of a parser function: the parsed value plus the remaining tokens
(the source's `Peekable<Iter<Token>>` cursor is the remaining token list). -/
abbrev ParseRes (α : Type) := Except ParseErr (α × List Token)

/-- Parser::check: does the peeked token have the given kind? -/
def check (ts : List Token) (token_type : TokenType) : Bool :=
  match ts.head? with
  | some t => t.token_type = token_type
  | none => false

/-- Parser::match_tokens: when the peeked token has one of the given kinds,
consume and return it. -/
def match_tokens (ts : List Token) (token_types : List TokenType) :
    Option Token × List Token :=
  match ts with
  | [] => (none, [])
  | t :: rest =>
    if token_types.any (fun tt => check (t :: rest) tt) then (some t, rest)
    else (none, t :: rest)

/-- Parser::consume_token. -/
def consume_token (ts : List Token) (token_type : TokenType)
    (error_message : String) : Except ParseErr (List Token) :=
  if check ts token_type then .ok ts.tail
  else
    match ts.head? with
    | some token =>
      .error (.errs ["Line " ++ toString token.line ++ " at \x27" ++ token.render ++
        "\x27: " ++ error_message])
    | none => .error (.errs ["At EOF: " ++ error_message])

mutual

/-- Parser::expression. -/
def expression (fuel : Nat) (ts : List Token) : ParseRes Expr :=
  match fuel with
  | 0 => .error .fuel
  | fuel + 1 => assignment fuel ts

/-- Parser::assignment: a logical-or, optionally followed by `=` and a
right-associative assignment whose target must be a Variable node. -/
def assignment (fuel : Nat) (ts : List Token) : ParseRes Expr :=
  match fuel with
  | 0 => .error .fuel
  | fuel + 1 =>
    match logical_or fuel ts with
    | .error er => .error er
    | .ok (e, ts1) =>
      match match_tokens ts1 [.Equal] with
      | (some _, ts2) =>
        match e with
        | .Variable name line _ =>
          match expression fuel ts2 with
          | .error er => .error er
          | .ok (rhs, ts3) => .ok (.Assignment name line rhs none, ts3)
        | _ => .error (.errs ["Invalid assignment target"])
      | (none, _) => .ok (e, ts1)

/-- Parser::logical_or: a logical-and, then at most one `or` whose right
operand is parsed by `comparison`. -/
def logical_or (fuel : Nat) (ts : List Token) : ParseRes Expr :=
  match fuel with
  | 0 => .error .fuel
  | fuel + 1 =>
    match logical_and fuel ts with
    | .error er => .error er
    | .ok (e, ts1) =>
      match match_tokens ts1 [.Or] with
      | (some operator, ts2) =>
        match comparison fuel ts2 with
        | .error er => .error er
        | .ok (r, ts3) => .ok (.Binary e operator r, ts3)
      | (none, _) => .ok (e, ts1)

/-- Parser::logical_and: an equality, then at most one `and` whose right
operand is parsed by `comparison`. -/
def logical_and (fuel : Nat) (ts : List Token) : ParseRes Expr :=
  match fuel with
  | 0 => .error .fuel
  | fuel + 1 =>
    match equality fuel ts with
    | .error er => .error er
    | .ok (e, ts1) =>
      match match_tokens ts1 [.And] with
      | (some operator, ts2) =>
        match comparison fuel ts2 with
        | .error er => .error er
        | .ok (r, ts3) => .ok (.Binary e operator r, ts3)
      | (none, _) => .ok (e, ts1)

/-- Parser::equality: a comparison, then at most one `==`/`!=` with a
comparison right operand (the source's inner match cannot reach its panic
arm, since the matched token is one of the two listed kinds). -/
def equality (fuel : Nat) (ts : List Token) : ParseRes Expr :=
  match fuel with
  | 0 => .error .fuel
  | fuel + 1 =>
    match comparison fuel ts with
    | .error er => .error er
    | .ok (e, ts1) =>
      match match_tokens ts1 [.EqualEqual, .BangEqual] with
      | (some operator, ts2) =>
        match comparison fuel ts2 with
        | .error er => .error er
        | .ok (r, ts3) => .ok (.Binary e operator r, ts3)
      | (none, _) => .ok (e, ts1)

/-- Parser::comparison: a term, then at most one `<`/`<=`/`>`/`>=` with a
term right operand (again the panic arm is unreachable). -/
def comparison (fuel : Nat) (ts : List Token) : ParseRes Expr :=
  match fuel with
  | 0 => .error .fuel
  | fuel + 1 =>
    match term fuel ts with
    | .error er => .error er
    | .ok (e, ts1) =>
      match match_tokens ts1 [.Less, .LessEqual, .Greater, .GreaterEqual] with
      | (some operator, ts2) =>
        match term fuel ts2 with
        | .error er => .error er
        | .ok (r, ts3) => .ok (.Binary e operator r, ts3)
      | (none, _) => .ok (e, ts1)

/-- Parser::term: a factor, then a left-associative loop of `-`/`+` with
factor right operands. -/
def term (fuel : Nat) (ts : List Token) : ParseRes Expr :=
  match fuel with
  | 0 => .error .fuel
  | fuel + 1 =>
    match factor fuel ts with
    | .error er => .error er
    | .ok (e, ts1) => term_rest fuel e ts1

/-- The while-loop of Parser::term. -/
def term_rest (fuel : Nat) (e : Expr) (ts : List Token) : ParseRes Expr :=
  match fuel with
  | 0 => .error .fuel
  | fuel + 1 =>
    match match_tokens ts [.Minus, .Plus] with
    | (some operator, ts1) =>
      match factor fuel ts1 with
      | .error er => .error er
      | .ok (r, ts2) => term_rest fuel (.Binary e operator r) ts2
    | (none, _) => .ok (e, ts)

/-- Parser::factor: a unary, then a left-associative loop of `/`/`*` with
unary right operands. -/
def factor (fuel : Nat) (ts : List Token) : ParseRes Expr :=
  match fuel with
  | 0 => .error .fuel
  | fuel + 1 =>
    match unary fuel ts with
    | .error er => .error er
    | .ok (e, ts1) => factor_rest fuel e ts1

/-- The while-loop of Parser::factor. -/
def factor_rest (fuel : Nat) (e : Expr) (ts : List Token) : ParseRes Expr :=
  match fuel with
  | 0 => .error .fuel
  | fuel + 1 =>
    match match_tokens ts [.Slash, .Star] with
    | (some operator, ts1) =>
      match unary fuel ts1 with
      | .error er => .error er
      | .ok (r, ts2) => factor_rest fuel (.Binary e operator r) ts2
    | (none, _) => .ok (e, ts)

/-- Parser::unary: `!`/`-` prefix operators, else a call. -/
def unary (fuel : Nat) (ts : List Token) : ParseRes Expr :=
  match fuel with
  | 0 => .error .fuel
  | fuel + 1 =>
    match match_tokens ts [.Bang, .Minus] with
    | (some t, ts1) =>
      match t.token_type with
      | .Bang =>
        match unary fuel ts1 with
        | .error er => .error er
        | .ok (e, ts2) => .ok (.LogicalNot e, ts2)
      | _ =>
        -- the matched token can only be Bang or Minus; this is the Minus arm
        match unary fuel ts1 with
        | .error er => .error er
        | .ok (e, ts2) => .ok (.UnaryNegate e, ts2)
    | (none, _) => parse_call fuel ts

/-- Parser::call: a primary, optionally followed by one parenthesised
argument list. -/
def parse_call (fuel : Nat) (ts : List Token) : ParseRes Expr :=
  match fuel with
  | 0 => .error .fuel
  | fuel + 1 =>
    match primary fuel ts with
    | .error er => .error er
    | .ok (e, ts1) =>
      match match_tokens ts1 [.LeftParen] with
      | (some left_param, ts2) =>
        match match_tokens ts2 [.RightParen] with
        | (some _, ts3) => .ok (.Call e left_param.line [], ts3)
        | (none, _) =>
          match call_args fuel ts2 with
          | .error er => .error er
          | .ok (args, ts3) => .ok (.Call e left_param.line args, ts3)
      | (none, _) => .ok (e, ts1)

/-- The argument-list loop of Parser::call, including the final `)`. -/
def call_args (fuel : Nat) (ts : List Token) : ParseRes (List Expr) :=
  match fuel with
  | 0 => .error .fuel
  | fuel + 1 =>
    match expression fuel ts with
    | .error er => .error er
    | .ok (a, ts1) =>
      match match_tokens ts1 [.Comma] with
      | (some _, ts2) =>
        match call_args fuel ts2 with
        | .error er => .error er
        | .ok (args, ts3) => .ok (a :: args, ts3)
      | (none, _) =>
        match consume_token ts1 .RightParen "Expected \x27)\x27 after function call arguments" with
        | .error er => .error er
        | .ok ts2 => .ok ([a], ts2)

/-- Parser::grouping (entered after the `(` was consumed by primary). -/
def grouping (fuel : Nat) (ts : List Token) : ParseRes Expr :=
  match fuel with
  | 0 => .error .fuel
  | fuel + 1 =>
    match expression fuel ts with
    | .error er => .error er
    | .ok (e, ts1) =>
      match ts1 with
      | t :: ts2 =>
        if t.token_type = .RightParen then .ok (.Grouping e, ts2)
        else
          .error (.errs ["Expected \x27)\x27 but found " ++ t.render ++ " at line " ++
            toString t.line])
      | [] => .error (.errs ["Expected \x27)\x27 but found EOF"])

/-- Parser::primary (Parser::identifier is inlined in the Identifier arm:
it builds a Variable node with an unset stack_idx). -/
def primary (fuel : Nat) (ts : List Token) : ParseRes Expr :=
  match fuel with
  | 0 => .error .fuel
  | fuel + 1 =>
    match ts with
    | t :: ts1 =>
      match t.token_type with
      | .True => .ok (.Bool true, ts1)
      | .False => .ok (.Bool false, ts1)
      | .Nil => .ok (.Nil, ts1)
      | .Number value => .ok (.Number value, ts1)
      | .Str value => .ok (.Str value, ts1)
      | .LeftParen => grouping fuel ts1
      | .Identifier name => .ok (.Variable name t.line none, ts1)
      | _ =>
        .error (.errs ["Expected primary expression, found " ++ t.render ++ " at line " ++
          toString t.line])
    | [] => .error (.errs ["Expected primary expression, found EOF"])

end

/-- Specification-side restatement of the call protocol, written from the
spec's words: a new activation environment is built from the closure's
captured environment (or fresh if none); the closure's own name is bound
first to its own value in that activation environment; then parameters are
bound positionally (a fold over the parameter/argument pairs); the body
executes in this activation environment; an explicit Return becomes the
call's value, otherwise the call yields Nil. -/
def LoxFunction_call_spec (fuel : Nat) (st : State) (lox_function : LoxFunction)
    (arguments : List EvalValue) : EvalRes :=
  match fuel with
  | 0 => .error .fuel
  | fuel + 1 =>
    let activation :=
      match lox_function.closure with
      | some captured => Environment.new_capture_env captured
      | none => Environment.new
    let with_self := activation.set_var st.store lox_function.declaration.name
      (.Function lox_function)
    let with_params := (lox_function.declaration.parameters.zip arguments).foldl
      (fun es pa => es.1.set_var es.2 pa.1 pa.2) with_self
    match executeMany fuel { st with locals := some with_params.1, store := with_params.2 }
        lox_function.declaration.statements with
    | .error er => .error er
    | .ok (st1, result) => .ok ({ st1 with locals := st.locals }, result.getD .Nil)

/-- The parameter-binding loop is the left fold of `set_var` over the
parameter/argument pairs. -/
theorem bind_parameters_eq_foldl (pairs : List (String × EvalValue))
    (env : Environment) (store : Store) :
    bind_parameters env store pairs =
      pairs.foldl (fun es pa => es.1.set_var es.2 pa.1 pa.2) (env, store) := by
  induction pairs generalizing env store with
  | nil => rfl
  | cons pa rest ih =>
    rw [bind_parameters, List.foldl_cons]
    exact ih _ _

/-- Mapping an early-return through "Some becomes the value, None becomes
Nil" is the same as `Option.getD Nil` on the returned option. -/
theorem call_result_shape (fuel : Nat) (stx : State) (ss : List Stmt)
    (loc : Option Environment) :
    (match executeMany fuel stx ss with
     | .error er => .error er
     | .ok (st1, some r) => .ok ({ st1 with locals := loc }, r)
     | .ok (st1, none) => .ok ({ st1 with locals := loc }, EvalValue.Nil) : EvalRes) =
    (match executeMany fuel stx ss with
     | .error er => .error er
     | .ok (st1, r) => .ok ({ st1 with locals := loc }, r.getD .Nil)) := by
  cases executeMany fuel stx ss with
  | error er => rfl
  | ok p =>
    cases p with
    | mk st1 r => cases r <;> rfl

/-- C1: for every call of a user-defined function, the activation
environment is built from the closure's captured environment (fresh
otherwise), the callee's own name is bound in it to the callee's own
function value, then each parameter is bound positionally to the
corresponding already-evaluated argument value, and a Return from the body
is the call's result (Nil when the body returns nothing):
LoxFunction::call coincides with the call protocol as the specification
states it, for every fuel, state, closure and argument list. -/
theorem LoxFunction_call_matches_spec (fuel : Nat) (st : State)
    (lox_function : LoxFunction) (arguments : List EvalValue) :
    callFunction fuel st lox_function arguments =
      LoxFunction_call_spec fuel st lox_function arguments := by
  cases fuel with
  | zero => rfl
  | succ fuel =>
    unfold callFunction LoxFunction_call_spec
    dsimp only
    cases hc : lox_function.closure with
    | none =>
      rw [bind_parameters_eq_foldl]
      exact call_result_shape fuel _ _ _
    | some captured =>
      rw [bind_parameters_eq_foldl]
      exact call_result_shape fuel _ _ _

/-- The interpreter's starting state: empty global environment, no local
environment, empty store, no output (Interpreter::new). -/
def initial_state : State :=
  { globals := Environment.new, locals := none, store := [], output := [] }

/-- C2 (code_bug evidence): evaluating `false and x` with `x` unbound does
not short-circuit to `false`; visit_binary evaluates both operands eagerly
before dispatching on the operator, so the right operand's undefined
variable error occurs even though the left operand is falsy. -/
theorem and_eager_evaluation_failing_input :
    evalExpr 5 initial_state
        (.Binary (.Bool false) (Token.new .And 1) (.Variable "x" 1 none)) =
      .error (.runtime "Undefined variable x at line 1") ∧
    (Except.error (Err.runtime "Undefined variable x at line 1") : EvalRes) ≠
      .ok (initial_state, .Bool false) := by
  exact ⟨rfl, by simp⟩

/-- The nested push/pop trace of C3: push a scope, introduce `a`, push an
inner scope, introduce `b`, pop the inner scope, pop the outer scope. -/
def c3_trace : Environment × Store :=
  let e0 := Environment.new.push_scope
  let es1 := e0.define_var [] "a" .Nil
  let e1 := es1.1.push_scope
  let es2 := e1.define_var es1.2 "b" .Nil
  let e2 := es2.1.pop_scope
  (e2.pop_scope, es2.2)

/-- C3 (code_bug evidence): after the matched outer pop_scope, the binding
`a` introduced inside the outer scope still exists (the binding stack was
truncated to the inner mark 1, not the outer mark 0), because pop_scope
never removes its mark from scope_stack. -/
theorem pop_scope_nested_failing_input :
    c3_trace.1.values.map StackValue.hash = ["a"] ∧
    c3_trace.1.scope_stack = [0, 1] := by
  exact ⟨rfl, rfl⟩

/-- C5: a non-empty (Return) result propagates immediately: execute_many
stops before the remaining sibling statements, a While body's Return ends
the loop without re-evaluating the condition, and an If propagates a
non-empty result from whichever branch ran. -/
theorem return_propagation :
    (∀ (fuel : Nat) (st : State) (s : Stmt) (rest : List Stmt) (st1 : State) (r : EvalValue),
      execute fuel st s = .ok (st1, some r) →
      executeMany (fuel + 1) st (s :: rest) = .ok (st1, some r)) ∧
    (∀ (fuel : Nat) (st : State) (condition : Expr) (body : Stmt) (st1 st2 : State)
        (cond r : EvalValue),
      evalExpr fuel st condition = .ok (st1, cond) → is_truthy cond = true →
      execute fuel st1 body = .ok (st2, some r) →
      execute (fuel + 1) st (.While condition body) = .ok (st2, some r)) ∧
    (∀ (fuel : Nat) (st : State) (condition : Expr) (tb : Stmt) (eb : Option Stmt)
        (st1 st2 : State) (cond r : EvalValue),
      evalExpr fuel st condition = .ok (st1, cond) → is_truthy cond = true →
      execute fuel st1 tb = .ok (st2, some r) →
      execute (fuel + 1) st (.If condition tb eb) = .ok (st2, some r)) ∧
    (∀ (fuel : Nat) (st : State) (condition : Expr) (tb eb : Stmt) (st1 st2 : State)
        (cond r : EvalValue),
      evalExpr fuel st condition = .ok (st1, cond) → is_truthy cond = false →
      execute fuel st1 eb = .ok (st2, some r) →
      execute (fuel + 1) st (.If condition tb (some eb)) = .ok (st2, some r)) := by
  refine ⟨?_, ?_, ?_, ?_⟩
  · intro fuel st s rest st1 r h
    unfold executeMany
    simp [h]
  · intro fuel st condition body st1 st2 cond r h1 h2 h3
    unfold execute
    simp [h1, h2, h3]
  · intro fuel st condition tb eb st1 st2 cond r h1 h2 h3
    unfold execute
    simp [h1, h2, h3]
  · intro fuel st condition tb eb st1 st2 cond r h1 h2 h3
    unfold execute
    simp [h1, h2, h3]

/-- Witness for C5 at concrete inputs: a Return in front of further
statements, inside a While body, and in each If branch, always yields the
returned value. -/
theorem return_propagation_witness :
    executeMany 3 initial_state [.Return (.Number 1), .Print []] =
      .ok (initial_state, some (.Number 1)) ∧
    execute 3 initial_state (.While (.Bool true) (.Return (.Number 2))) =
      .ok (initial_state, some (.Number 2)) ∧
    execute 3 initial_state (.If (.Bool true) (.Return (.Number 3)) none) =
      .ok (initial_state, some (.Number 3)) ∧
    execute 3 initial_state (.If (.Bool false) (.Print []) (some (.Return (.Number 4)))) =
      .ok (initial_state, some (.Number 4)) := by
  refine ⟨?_, ?_, ?_, ?_⟩
  · exact return_propagation.1 2 initial_state _ _ _ _ rfl
  · exact return_propagation.2.1 2 initial_state _ _ _ _ _ _ rfl rfl rfl
  · exact return_propagation.2.2.1 2 initial_state _ _ _ _ _ _ _ rfl rfl rfl
  · exact return_propagation.2.2.2 2 initial_state _ _ _ _ _ _ _ rfl rfl rfl

/-- C7: given the already-evaluated operand values, every comparison and
equality operator yields a Bool when both operands are Numbers and the
"Must be numbers" type error otherwise (including two Strs under `==`);
`-`, `/`, `*` require two Numbers and yield a Number; `+` yields the sum
for two Numbers, the concatenation for two Strs, and the "Must be numbers
or string" type error otherwise. -/
theorem binary_operator_typing (fuel : Nat) (st st1 st2 : State) (l r : Expr)
    (ln : Nat) (lv rv : EvalValue)
    (hl : evalExpr fuel st l = .ok (st1, lv))
    (hr : evalExpr fuel st1 r = .ok (st2, rv)) :
    (evalExpr (fuel + 1) st (.Binary l (Token.new .Less ln) r) =
      match lv, rv with
      | .Number a, .Number b => .ok (st2, .Bool (decide (a < b)))
      | _, _ => .error (.runtime "Must be numbers")) ∧
    (evalExpr (fuel + 1) st (.Binary l (Token.new .LessEqual ln) r) =
      match lv, rv with
      | .Number a, .Number b => .ok (st2, .Bool (decide (a ≤ b)))
      | _, _ => .error (.runtime "Must be numbers")) ∧
    (evalExpr (fuel + 1) st (.Binary l (Token.new .Greater ln) r) =
      match lv, rv with
      | .Number a, .Number b => .ok (st2, .Bool (decide (a > b)))
      | _, _ => .error (.runtime "Must be numbers")) ∧
    (evalExpr (fuel + 1) st (.Binary l (Token.new .GreaterEqual ln) r) =
      match lv, rv with
      | .Number a, .Number b => .ok (st2, .Bool (decide (a ≥ b)))
      | _, _ => .error (.runtime "Must be numbers")) ∧
    (evalExpr (fuel + 1) st (.Binary l (Token.new .EqualEqual ln) r) =
      match lv, rv with
      | .Number a, .Number b => .ok (st2, .Bool (decide (a = b)))
      | _, _ => .error (.runtime "Must be numbers")) ∧
    (evalExpr (fuel + 1) st (.Binary l (Token.new .BangEqual ln) r) =
      match lv, rv with
      | .Number a, .Number b => .ok (st2, .Bool (decide (a ≠ b)))
      | _, _ => .error (.runtime "Must be numbers")) ∧
    (evalExpr (fuel + 1) st (.Binary l (Token.new .Minus ln) r) =
      match lv, rv with
      | .Number a, .Number b => .ok (st2, .Number (a - b))
      | _, _ => .error (.runtime "Must be numbers")) ∧
    (evalExpr (fuel + 1) st (.Binary l (Token.new .Slash ln) r) =
      match lv, rv with
      | .Number a, .Number b => .ok (st2, .Number (a / b))
      | _, _ => .error (.runtime "Must be numbers")) ∧
    (evalExpr (fuel + 1) st (.Binary l (Token.new .Star ln) r) =
      match lv, rv with
      | .Number a, .Number b => .ok (st2, .Number (a * b))
      | _, _ => .error (.runtime "Must be numbers")) ∧
    (evalExpr (fuel + 1) st (.Binary l (Token.new .Plus ln) r) =
      match lv, rv with
      | .Number a, .Number b => .ok (st2, .Number (a + b))
      | .Str a, .Str b => .ok (st2, .Str (a ++ b))
      | _, _ => .error (.runtime "Must be numbers or string")) := by
  refine ⟨?_, ?_, ?_, ?_, ?_, ?_, ?_, ?_, ?_, ?_⟩ <;>
    (unfold evalExpr; simp only [Token.new, hl, hr]) <;>
    (cases lv <;> cases rv <;> rfl)

/-- Witness for C7 at concrete inputs: `1 < 2` is `true`, `"a" == "b"` is a
"Must be numbers" error, `"a" - 1` is a "Must be numbers" error, `1 + 2` is
`3`, `"a" + "b"` is `"ab"`, and `1 + "a"` is a "Must be numbers or string"
error. -/
theorem binary_operator_typing_witness :
    evalExpr 5 initial_state (.Binary (.Number 1) (Token.new .Less 1) (.Number 2)) =
      .ok (initial_state, .Bool true) ∧
    evalExpr 5 initial_state (.Binary (.Str "a") (Token.new .EqualEqual 1) (.Str "b")) =
      .error (.runtime "Must be numbers") ∧
    evalExpr 5 initial_state (.Binary (.Str "a") (Token.new .Minus 1) (.Number 1)) =
      .error (.runtime "Must be numbers") ∧
    evalExpr 5 initial_state (.Binary (.Number 1) (Token.new .Plus 1) (.Number 2)) =
      .ok (initial_state, .Number 3) ∧
    evalExpr 5 initial_state (.Binary (.Str "a") (Token.new .Plus 1) (.Str "b")) =
      .ok (initial_state, .Str "ab") ∧
    evalExpr 5 initial_state (.Binary (.Number 1) (Token.new .Plus 1) (.Str "a")) =
      .error (.runtime "Must be numbers or string") := by
  have h1 := (binary_operator_typing 4 initial_state initial_state initial_state
    (.Number 1) (.Number 2) 1 (.Number 1) (.Number 2) rfl rfl).1
  have h2 := (binary_operator_typing 4 initial_state initial_state initial_state
    (.Str "a") (.Str "b") 1 (.Str "a") (.Str "b") rfl rfl).2.2.2.2.1
  have h3 := (binary_operator_typing 4 initial_state initial_state initial_state
    (.Str "a") (.Number 1) 1 (.Str "a") (.Number 1) rfl rfl).2.2.2.2.2.2.1
  have h4 := (binary_operator_typing 4 initial_state initial_state initial_state
    (.Number 1) (.Number 2) 1 (.Number 1) (.Number 2) rfl rfl).2.2.2.2.2.2.2.2.2
  have h5 := (binary_operator_typing 4 initial_state initial_state initial_state
    (.Str "a") (.Str "b") 1 (.Str "a") (.Str "b") rfl rfl).2.2.2.2.2.2.2.2.2
  have h6 := (binary_operator_typing 4 initial_state initial_state initial_state
    (.Number 1) (.Str "a") 1 (.Number 1) (.Str "a") rfl rfl).2.2.2.2.2.2.2.2.2
  refine ⟨?_, ?_, ?_, ?_, ?_, ?_⟩
  · rw [h1]; norm_num
  · exact h2
  · exact h3
  · rw [h4]; norm_num
  · exact h5
  · exact h6

/-- After set_var, get_var of the same name reads back the value (the found
binding's cell was overwritten in place, or a fresh binding was pushed). -/
theorem get_var_set_var (env : Environment) (store : Store) (name : String)
    (v : EvalValue) (hwf : EnvWF env store) :
    (env.set_var store name v).1.get_var (env.set_var store name v).2 name = some v := by
  unfold Environment.set_var
  cases h : env.find_eval_value name 0 with
  | none =>
    unfold Environment.get_var Environment.find_eval_value
    simp only [List.drop_zero, List.reverse_append, List.reverse_cons, List.reverse_nil,
      List.nil_append, List.cons_append, List.find?_cons]
    simp [hash_name, List.getD_eq_getElem?_getD, List.getElem?_concat_length]
  | some sv =>
    have hmem : sv ∈ env.values := by
      have hm := List.mem_of_find?_eq_some h
      rw [List.drop_zero, List.mem_reverse] at hm
      exact hm
    have hpred := List.find?_some h
    have hlt : sv.value < store.length := hwf sv hmem
    unfold Environment.get_var
    have hfind : (env.find_eval_value name 0) = some sv := h
    rw [hfind]
    simp [List.getD_eq_getElem?_getD, List.getElem?_set_eq_of_lt _ hlt]

/-- C10: executing a Function declaration statement always installs the
binding for the function's name in the global environment — whatever local
environment is active — and leaves the local environment unchanged (the
installed value captures the declaring local environment as its closure). -/
theorem visit_function_installs_global (fuel : Nat) (st : State) (f : FunctionDecl)
    (hwf : EnvWF st.globals st.store) :
    ∃ g1 s1,
      execute (fuel + 1) st (.Function f) =
        .ok ({ globals := g1, locals := st.locals, store := s1, output := st.output }, none) ∧
      g1.get_var s1 f.name = some (.Function ⟨f, st.locals⟩) := by
  refine ⟨(st.globals.set_var st.store f.name (.Function ⟨f, st.locals⟩)).1,
    (st.globals.set_var st.store f.name (.Function ⟨f, st.locals⟩)).2, ?_, ?_⟩
  · rfl
  · exact get_var_set_var st.globals st.store f.name (.Function ⟨f, st.locals⟩) hwf

/-- The concrete state for the C10 witness: empty globals, an (empty)
activation environment present. -/
def c10_state : State :=
  { globals := Environment.new, locals := some Environment.new, store := [], output := [] }

/-- Witness for C10: declaring `fun f` inside an activation environment
installs `f` in the (empty) global environment and leaves the local
environment untouched. -/
theorem visit_function_installs_global_witness :
    ∃ g1 s1,
      execute 2 c10_state (.Function ⟨"f", [], [], 1⟩) =
        .ok ({ globals := g1, locals := some Environment.new, store := s1, output := [] }, none) ∧
      g1.get_var s1 "f" = some (.Function ⟨⟨"f", [], [], 1⟩, some Environment.new⟩) := by
  exact visit_function_installs_global 1 c10_state ⟨"f", [], [], 1⟩
    (by intro sv hsv; simp [c10_state, Environment.new] at hsv)

/-- The variable-read rule as the specification states it: a node whose
resolved_slot (stack_idx) is stamped reads the local slot directly;
otherwise the read goes to the global environment; a name found nowhere is
the "Undefined variable" runtime error. -/
def visit_variable_spec (st : State) (name : String) (line : Nat)
    (stack_idx : Option Nat) : EvalRes :=
  match stack_idx, st.locals with
  | some idx, some le =>
    match le.values[idx]? with
    | some sv => .ok (st, st.store.getD sv.value .Nil)
    | none => .error (.runtime ("Undefined variable " ++ name ++ " at line " ++ toString line))
  | _, _ =>
    match st.globals.get_var st.store name with
    | some v => .ok (st, v)
    | none => .error (.runtime ("Undefined variable " ++ name ++ " at line " ++ toString line))

/-- The concrete state refuting C4: the local environment binds `a` to cell
0 (Number 7) and `b` to cell 1 (Number 8); the global environment binds `a`
to cell 2 (Number 9). -/
def c4_state : State :=
  { globals := ⟨[⟨"a", 2⟩], []⟩,
    locals := some ⟨[⟨"a", 0⟩, ⟨"b", 1⟩], []⟩,
    store := [.Number 7, .Number 8, .Number 9],
    output := [] }

/-- C4 counterexample: the interpreter does not follow the claimed
variable-read rule.  An unstamped node is read from the local environment
(7), not the global one (9) as the claim requires; and a stamped node is
read by name search (8), not through its slot index (7). -/
theorem variable_read_counterexample :
    evalExpr 5 c4_state (.Variable "a" 1 none) = .ok (c4_state, .Number 7) ∧
    visit_variable_spec c4_state "a" 1 none = .ok (c4_state, .Number 9) ∧
    evalExpr 5 c4_state (.Variable "b" 1 (some 0)) = .ok (c4_state, .Number 8) ∧
    visit_variable_spec c4_state "b" 1 (some 0) = .ok (c4_state, .Number 7) ∧
    (Except.ok (c4_state, EvalValue.Number 7) : EvalRes) ≠ .ok (c4_state, .Number 9) ∧
    (Except.ok (c4_state, EvalValue.Number 8) : EvalRes) ≠ .ok (c4_state, .Number 7) := by
  refine ⟨rfl, rfl, rfl, rfl, by simp, by simp⟩

/-- C4 (amended): visit_variable ignores the stack_idx annotation entirely;
every variable read searches the local environment by name first (when one
exists), then the global environment, and a name found in neither yields
the runtime error "Undefined variable {name} at line {line}". -/
theorem visit_variable_characterization :
    (∀ (fuel : Nat) (st : State) (name : String) (line : Nat) (idx idx2 : Option Nat),
      evalExpr (fuel + 1) st (.Variable name line idx) =
        evalExpr (fuel + 1) st (.Variable name line idx2)) ∧
    (∀ (fuel : Nat) (st : State) (name : String) (line : Nat) (idx : Option Nat)
        (le : Environment) (v : EvalValue),
      st.locals = some le → le.get_var st.store name = some v →
      evalExpr (fuel + 1) st (.Variable name line idx) = .ok (st, v)) ∧
    (∀ (fuel : Nat) (st : State) (name : String) (line : Nat) (idx : Option Nat)
        (v : EvalValue),
      (∀ le, st.locals = some le → le.get_var st.store name = none) →
      st.globals.get_var st.store name = some v →
      evalExpr (fuel + 1) st (.Variable name line idx) = .ok (st, v)) ∧
    (∀ (fuel : Nat) (st : State) (name : String) (line : Nat) (idx : Option Nat),
      (∀ le, st.locals = some le → le.get_var st.store name = none) →
      st.globals.get_var st.store name = none →
      evalExpr (fuel + 1) st (.Variable name line idx) =
        .error (.runtime ("Undefined variable " ++ name ++ " at line " ++ toString line))) := by
  refine ⟨?_, ?_, ?_, ?_⟩
  · intro fuel st name line idx idx2
    unfold evalExpr
    rfl
  · intro fuel st name line idx le v h1 h2
    unfold evalExpr
    simp [h1, h2]
  · intro fuel st name line idx v h1 h2
    unfold evalExpr
    cases hl : st.locals with
    | none => simp [h2]
    | some le => simp [h1 le hl, h2]
  · intro fuel st name line idx h1 h2
    unfold evalExpr
    cases hl : st.locals with
    | none => simp [h2]
    | some le => simp [h1 le hl, h2]

/-- A state with no local environment and one global binding, for the C4
witness. -/
def c4_state2 : State :=
  { globals := ⟨[⟨"g", 0⟩], []⟩, locals := none, store := [.Number 5], output := [] }

/-- Witness for C4 (amended) at concrete inputs: a local binding shadows
the global one, globals are used when the local search misses, and an
unbound name is the "Undefined variable" error. -/
theorem visit_variable_characterization_witness :
    evalExpr 5 c4_state (.Variable "a" 7 (some 3)) = .ok (c4_state, .Number 7) ∧
    evalExpr 5 c4_state (.Variable "a" 7 none) = evalExpr 5 c4_state (.Variable "a" 7 (some 3)) ∧
    evalExpr 5 c4_state2 (.Variable "g" 3 none) = .ok (c4_state2, .Number 5) ∧
    evalExpr 5 initial_state (.Variable "y" 2 none) =
      .error (.runtime ("Undefined variable y at line 2")) := by
  refine ⟨?_, ?_, ?_, ?_⟩
  · exact visit_variable_characterization.2.1 4 c4_state "a" 7 (some 3) _ _ rfl rfl
  · exact visit_variable_characterization.1 4 c4_state "a" 7 none (some 3)
  · exact visit_variable_characterization.2.2.1 4 c4_state2 "g" 3 none (.Number 5)
      (by intro le hle; cases hle) rfl
  · exact visit_variable_characterization.2.2.2 4 initial_state "y" 2 none
      (by intro le hle; cases hle) rfl

/-- Specification-side description of one non-iterating precedence level:
parse `first`, then, when one of `ops` follows, consume it and parse the
right operand with `rhs`. -/
def levelOnce (first rhs : List Token → ParseRes Expr) (ops : List TokenType)
    (ts : List Token) : ParseRes Expr :=
  match first ts with
  | .error er => .error er
  | .ok (e, ts1) =>
    match match_tokens ts1 ops with
    | (some operator, ts2) =>
      match rhs ts2 with
      | .error er => .error er
      | .ok (r, ts3) => .ok (.Binary e operator r, ts3)
    | (none, _) => .ok (e, ts1)

/-- A one-line helper for tokens in the C6 statements. -/
def tk (tt : TokenType) : Token :=
  Token.new tt 1

/-- C6 counterexample: `a or b and c` does not parse as
`a or (b and c)`; logical_or's right operand is parsed by `comparison`,
which stops before `and`, leaving `and c` unconsumed. -/
theorem or_rhs_precedence_counterexample :
    expression 20 [tk (.Identifier "a"), tk .Or, tk (.Identifier "b"), tk .And,
        tk (.Identifier "c")] =
      .ok (.Binary (.Variable "a" 1 none) (tk .Or) (.Variable "b" 1 none),
        [tk .And, tk (.Identifier "c")]) ∧
    expression 20 [tk (.Identifier "a"), tk .Or, tk (.Identifier "b"), tk .And,
        tk (.Identifier "c")] ≠
      .ok (.Binary (.Variable "a" 1 none) (tk .Or)
        (.Binary (.Variable "b" 1 none) (tk .And) (.Variable "c" 1 none)), []) := by
  refine ⟨rfl, ?_⟩
  intro hcontra
  rw [show expression 20 [tk (.Identifier "a"), tk .Or, tk (.Identifier "b"), tk .And,
      tk (.Identifier "c")] =
    .ok (.Binary (.Variable "a" 1 none) (tk .Or) (.Variable "b" 1 none),
      [tk .And, tk (.Identifier "c")]) from rfl] at hcontra
  simp [tk, Token.new] at hcontra

/-- C6 (amended): the descent chain is
expression → assignment → logical-or → logical-and → equality →
comparison → term → factor → unary → call → primary, but the right operand
of `or`, of `and`, and of `==`/`!=` is parsed at the comparison level (not
at the logical-and / equality level), and each of these levels accepts at
most one operator; the lower levels bind as the chain prescribes. -/
theorem precedence_chain_characterization :
    (∀ (fuel : Nat) (ts : List Token), expression (fuel + 1) ts = assignment fuel ts) ∧
    (∀ (fuel : Nat) (ts : List Token),
      logical_or (fuel + 1) ts = levelOnce (logical_and fuel) (comparison fuel) [.Or] ts) ∧
    (∀ (fuel : Nat) (ts : List Token),
      logical_and (fuel + 1) ts = levelOnce (equality fuel) (comparison fuel) [.And] ts) ∧
    (∀ (fuel : Nat) (ts : List Token),
      equality (fuel + 1) ts =
        levelOnce (comparison fuel) (comparison fuel) [.EqualEqual, .BangEqual] ts) ∧
    (∀ (fuel : Nat) (ts : List Token),
      comparison (fuel + 1) ts =
        levelOnce (term fuel) (term fuel) [.Less, .LessEqual, .Greater, .GreaterEqual] ts) ∧
    (expression 20 [tk (.Number 1), tk .Plus, tk (.Number 2), tk .Star, tk (.Number 3)] =
      .ok (.Binary (.Number 1) (tk .Plus) (.Binary (.Number 2) (tk .Star) (.Number 3)), [])) ∧
    (expression 20 [tk (.Number 1), tk .Less, tk (.Number 2), tk .Plus, tk (.Number 3)] =
      .ok (.Binary (.Number 1) (tk .Less) (.Binary (.Number 2) (tk .Plus) (.Number 3)), [])) ∧
    (expression 20 [tk .Minus, tk (.Number 1), tk .Star, tk (.Number 2)] =
      .ok (.Binary (.UnaryNegate (.Number 1)) (tk .Star) (.Number 2), [])) ∧
    (expression 20 [tk .Bang, tk .False] = .ok (.LogicalNot (.Bool false), [])) ∧
    (expression 30 [tk (.Identifier "f"), tk .LeftParen, tk (.Number 1), tk .RightParen] =
      .ok (.Call (.Variable "f" 1 none) 1 [.Number 1], [])) := by
  refine ⟨?_, ?_, ?_, ?_, ?_, rfl, rfl, rfl, rfl, rfl⟩
  · intro fuel ts; rfl
  · intro fuel ts; rfl
  · intro fuel ts; rfl
  · intro fuel ts; rfl
  · intro fuel ts; rfl

/-- Membership in the tokens after add_token. -/
theorem mem_add_token (st : ScanState) (tt : TokenType) (t : Token)
    (ht : t ∈ (st.add_token tt).tokens) : t ∈ st.tokens ∨ t = Token.new tt st.line := by
  unfold ScanState.add_token at ht
  simpa using List.mem_append.1 ht

/-- The keyword table never yields the Eof kind. -/
theorem keyword_lookup_ne_eof (s : String) (tt : TokenType)
    (h : keyword_lookup s = some tt) : tt ≠ .Eof := by
  unfold keyword_lookup at h
  split at h <;> first
    | exact Option.noConfusion h
    | (injection h with h; cases h; decide)

/-- The single-character table never yields the Eof kind. -/
theorem single_char_token_ne_eof (c : Char) (tt : TokenType)
    (h : single_char_token c = some tt) : tt ≠ .Eof := by
  unfold single_char_token at h
  split_ifs at h <;> first
    | exact Option.noConfusion h
    | (injection h with h; cases h; decide)

/-- Neither component of the two-character table is the Eof kind. -/
theorem two_char_token_ne_eof (c : Char) (mt : TokenType × TokenType)
    (h : two_char_token c = some mt) : mt.1 ≠ .Eof ∧ mt.2 ≠ .Eof := by
  unfold two_char_token at h
  split_ifs at h <;> first
    | exact Option.noConfusion h
    | (injection h with h; cases h; exact ⟨by decide, by decide⟩)

/-- string only appends a Str token. -/
theorem string_tokens (st : ScanState) (t : Token) (ht : t ∈ (st.string).tokens) :
    t ∈ st.tokens ∨ t.token_type ≠ .Eof := by
  simp only [ScanState.string, ScanState.advance, ScanState.add_token, List.mem_append,
    List.mem_singleton] at ht
  rcases ht with h | h
  · left
    rw [← (advance_while_frame (fun c => c ≠ '"') st).2.2.2.1]
    exact h
  · right
    rw [h]
    simp [Token.new]

/-- number only appends a Number token. -/
theorem number_tokens (st : ScanState) (start : Nat) (t : Token)
    (ht : t ∈ (st.number start).tokens) : t ∈ st.tokens ∨ t.token_type ≠ .Eof := by
  unfold ScanState.number at ht
  dsimp only at ht
  split at ht
  · rcases mem_add_token _ _ _ ht with h | h
    · split at h
      · dsimp only at h
        have h1 : (advance_while Char.isDigit
            ((advance_while Char.isDigit st).2.advance).2).2.tokens =
            (advance_while Char.isDigit st).2.tokens :=
          (advance_while_frame Char.isDigit ((advance_while Char.isDigit st).2.advance).2).2.2.2.1
        have h2 := (advance_while_frame Char.isDigit st).2.2.2.1
        rw [h1, h2] at h
        exact Or.inl h
      · have h1 : (advance_while Char.isDigit
            ((advance_while Char.isDigit st).2.advance).2).2.tokens =
            (advance_while Char.isDigit st).2.tokens :=
          (advance_while_frame Char.isDigit ((advance_while Char.isDigit st).2.advance).2).2.2.2.1
        have h2 := (advance_while_frame Char.isDigit st).2.2.2.1
        rw [h1, h2] at h
        exact Or.inl h
    · right
      rw [h]
      simp [Token.new]
  · rcases mem_add_token _ _ _ ht with h | h
    · split at h
      · dsimp only at h
        rw [(advance_while_frame Char.isDigit st).2.2.2.1] at h
        exact Or.inl h
      · rw [(advance_while_frame Char.isDigit st).2.2.2.1] at h
        exact Or.inl h
    · right
      rw [h]
      simp [Token.new]

/-- identifier only appends a keyword or Identifier token. -/
theorem identifier_tokens (st : ScanState) (start : Nat) (t : Token)
    (ht : t ∈ (st.identifier start).tokens) : t ∈ st.tokens ∨ t.token_type ≠ .Eof := by
  unfold ScanState.identifier at ht
  dsimp only at ht
  split at ht
  case _ tt hk =>
    rcases mem_add_token _ _ _ ht with h | h
    · left
      rw [(advance_while_frame (fun c => c.isAlphanum || c = '_') st).2.2.2.1] at h
      exact h
    · right
      rw [h]
      simpa [Token.new] using keyword_lookup_ne_eof _ _ hk
  case _ hk =>
    rcases mem_add_token _ _ _ ht with h | h
    · left
      rw [(advance_while_frame (fun c => c.isAlphanum || c = '_') st).2.2.2.1] at h
      exact h
    · right
      rw [h]
      simp [Token.new]

/-- match_char never touches the token list. -/
theorem match_char_tokens (st : ScanState) (c : Char) (mt ut : TokenType) :
    (st.match_char c mt ut).2.tokens = st.tokens := by
  unfold ScanState.match_char
  split <;> rfl

/-- match_char returns one of its two candidate kinds. -/
theorem match_char_fst (st : ScanState) (c : Char) (mt ut : TokenType) :
    (st.match_char c mt ut).1 = mt ∨ (st.match_char c mt ut).1 = ut := by
  unfold ScanState.match_char
  split
  · exact Or.inr rfl
  · exact Or.inl rfl

/-- scan_token_dispatch only appends non-Eof tokens. -/
theorem scan_token_dispatch_tokens (ch : Nat × Char) (st : ScanState) (t : Token)
    (ht : t ∈ (scan_token_dispatch ch st).tokens) : t ∈ st.tokens ∨ t.token_type ≠ .Eof := by
  unfold scan_token_dispatch at ht
  split at ht
  · exact Or.inl ht
  split at ht
  · exact Or.inl ht
  split at ht
  · split at ht
    · rw [(advance_while_frame (fun c => c ≠ '\n') st).2.2.2.1] at ht
      exact Or.inl ht
    · rcases mem_add_token _ _ _ ht with h | h
      · exact Or.inl h
      · right; rw [h]; simp [Token.new]
  split at ht
  · exact string_tokens st t ht
  split at ht
  case _ tt hsc =>
    rcases mem_add_token _ _ _ ht with h | h
    · exact Or.inl h
    · right; rw [h]
      simpa [Token.new] using single_char_token_ne_eof _ _ hsc
  split at ht
  case _ mt htc =>
    rcases mem_add_token _ _ _ ht with h | h
    · left
      rw [match_char_tokens] at h
      exact h
    · right
      rw [h]
      have hb := two_char_token_ne_eof _ _ htc
      rcases match_char_fst st '=' mt.1 mt.2 with hf | hf
      · simp only [Token.new, hf]
        exact hb.1
      · simp only [Token.new, hf]
        exact hb.2
  split at ht
  · exact number_tokens st ch.1 t ht
  split at ht
  · exact identifier_tokens st ch.1 t ht
  · exact Or.inl ht

/-- scan_token only appends non-Eof tokens. -/
theorem scan_token_tokens (st : ScanState) (t : Token) (ht : t ∈ (scan_token st).tokens) :
    t ∈ st.tokens ∨ t.token_type ≠ .Eof :=
  scan_token_dispatch_tokens (st.advance).1 (st.advance).2 t ht

/-- The scanning loop only appends non-Eof tokens. -/
theorem scan_tokens_go_tokens (fuel : Nat) (st : ScanState) (t : Token)
    (ht : t ∈ (scan_tokens_go fuel st).tokens) : t ∈ st.tokens ∨ t.token_type ≠ .Eof := by
  induction fuel generalizing st with
  | zero => exact Or.inl ht
  | succ fuel ih =>
    unfold scan_tokens_go at ht
    split at ht
    · rcases ih (scan_token st) ht with h | h
      · exact scan_token_tokens st t h
      · exact Or.inr h
    · exact Or.inl ht

/-- The scanner state after the whole scanning loop, before the Eof token is
appended and the error check is made. -/
def scan_final (source : List Char) : ScanState :=
  scan_tokens_loop { source := source, pos := 0, line := 1, tokens := [], errors := [] }

/-- C8: scanning never aborts on a bad character — it records the error and
continues — and scan returns the complete accumulated error list exactly
when at least one error occurred, otherwise the scanned tokens terminated
by a single Eof token (no other token is an Eof); on `^&%` all three
invalid characters are reported. -/
theorem scan_error_accumulation :
    (∀ (source : List Char) (es : List String),
      scan source = .error es ↔ ((scan_final source).errors = es ∧ es ≠ [])) ∧
    (∀ source : List Char, (∃ ts, scan source = .ok ts) ↔ (scan_final source).errors = []) ∧
    (∀ (source : List Char) (ts : List Token),
      scan source = .ok ts →
      ts = (scan_final source).tokens ++ [Token.new .Eof (scan_final source).line] ∧
      ∀ t ∈ (scan_final source).tokens, t.token_type ≠ .Eof) ∧
    (scan ['^', '&', '%'] = .error ["Invalid character ^ at line 1",
      "Invalid character & at line 1", "Invalid character % at line 1"]) := by
  refine ⟨?_, ?_, ?_, rfl⟩
  · intro source es
    unfold scan scan_tokens scan_final scan_tokens_loop ScanState.add_token
    dsimp only
    split
    case isTrue he =>
      constructor
      · intro h
        exact Except.noConfusion h
      · rintro ⟨h1, h2⟩
        exact absurd (h1 ▸ he) h2
    case isFalse he =>
      constructor
      · intro h
        injection h with h
        exact ⟨h, fun hc => he (h.trans hc)⟩
      · rintro ⟨h1, h2⟩
        rw [h1]
  · intro source
    unfold scan scan_tokens scan_final scan_tokens_loop ScanState.add_token
    dsimp only
    split
    case isTrue he =>
      exact ⟨fun _ => he, fun _ => ⟨_, rfl⟩⟩
    case isFalse he =>
      constructor
      · rintro ⟨ts, h⟩
        exact Except.noConfusion h
      · intro h
        exact absurd h he
  · intro source ts h
    unfold scan scan_tokens ScanState.add_token at h
    dsimp only at h
    split at h
    case isTrue he =>
      injection h with h
      refine ⟨?_, ?_⟩
      · rw [← h]
        rfl
      · intro t htmem
        unfold scan_final scan_tokens_loop at htmem
        rcases scan_tokens_go_tokens _ _ t htmem with hmem | hne
        · exact absurd hmem (List.not_mem_nil t)
        · exact hne
    case isFalse he =>
      exact Except.noConfusion h

/-- Witness for C8 at a concrete input: scanning `a` yields an Identifier
token and the final Eof, with no other Eof token. -/
theorem scan_error_accumulation_witness :
    [Token.new (.Identifier "a") 1, Token.new .Eof 1] =
      (scan_final ['a']).tokens ++ [Token.new .Eof (scan_final ['a']).line] ∧
    ∀ t ∈ (scan_final ['a']).tokens, t.token_type ≠ .Eof :=
  scan_error_accumulation.2.2.1 ['a'] [Token.new (.Identifier "a") 1, Token.new .Eof 1] rfl

/-- When every remaining character satisfies the predicate, advance_while
consumes everything and stops at the end of input. -/
theorem advance_while_go_all (fuel : Nat) (p : Char → Bool) (st : ScanState)
    (hfuel : st.pos + fuel = st.source.length)
    (hall : ∀ (i : Nat) (h : i < st.source.length), st.pos ≤ i → p (st.source.get ⟨i, h⟩)) :
    advance_while_go fuel p st = (st.source.length, { st with pos := st.source.length }) := by
  induction fuel generalizing st with
  | zero =>
    have hpos : st.pos = st.source.length := by omega
    unfold advance_while_go
    obtain ⟨src, pos, line, tokens, errors⟩ := st
    simp only at hpos
    subst hpos
    simp [ScanState.curr]
  | succ fuel ih =>
    unfold advance_while_go
    have hlt : st.pos < st.source.length := by omega
    rw [dif_pos hlt, if_pos (hall st.pos hlt (le_refl _))]
    have hih := ih { st with pos := st.pos + 1 } (by dsimp only; omega)
      (fun i h hle => hall i h (by dsimp only at hle; omega))
    rw [hih]

/-- When no closing quote remains, string consumes the whole remaining input
and emits one Str token holding exactly those characters, adding no
error. -/
theorem string_unterminated (st : ScanState) (hpos : st.pos < st.source.length)
    (hnq : ∀ (i : Nat) (h : i < st.source.length), st.pos ≤ i → st.source.get ⟨i, h⟩ ≠ '"') :
    st.string =
      { st with
        pos := st.source.length + 1,
        tokens := st.tokens ++ [Token.new (.Str (String.mk
          ((st.source.drop st.pos).take (st.source.length - st.pos)))) st.line] } := by
  unfold ScanState.string
  have haw : advance_while (fun c => c ≠ '"') st =
      (st.source.length, { st with pos := st.source.length }) := by
    unfold advance_while
    exact advance_while_go_all _ _ st (by omega) (fun i h hle => by simpa using hnq i h hle)
  rw [haw]
  have hcurr : st.curr.1 = st.pos := by simp [ScanState.curr, hpos]
  dsimp only [ScanState.add_token, ScanState.advance]
  rw [hcurr]

/-- scan_token on a double quote hands over to string after consuming it. -/
theorem scan_token_quote (st : ScanState) (h : st.curr.2 = '"') :
    scan_token st = ScanState.string { st with pos := st.pos + 1 } := by
  unfold scan_token scan_token_dispatch ScanState.advance
  dsimp only
  rw [h]
  rw [if_neg (by decide), if_neg (by decide), if_neg (by decide), if_pos rfl]

/-- C9: a string literal whose opening quote is never closed scans without
error into a single Str token holding every character after the opening
quote up to the end of the input (plus the final Eof token). -/
theorem unterminated_string_scan (rest : List Char) (hq : '"' ∉ rest) :
    scan ('"' :: rest) = .ok [Token.new (.Str (String.mk rest)) 1, Token.new .Eof 1] := by
  cases rest with
  | nil => rfl
  | cons c cs =>
    have hnq : ∀ (i : Nat) (h : i < ('"' :: c :: cs : List Char).length),
        1 ≤ i → ('"' :: c :: cs : List Char).get ⟨i, h⟩ ≠ '"' := by
      intro i h hle
      cases i with
      | zero => omega
      | succ i =>
        have hmem : ('"' :: c :: cs : List Char).get ⟨i + 1, h⟩ ∈ (c :: cs : List Char) := by
          have heq : ('"' :: c :: cs : List Char).get ⟨i + 1, h⟩ =
              (c :: cs : List Char).get ⟨i, by simpa using h⟩ := rfl
          rw [heq]
          exact List.get_mem _ _ _
        intro hcontra
        rw [hcontra] at hmem
        exact hq hmem
    have hstring := string_unterminated
      { source := '"' :: c :: cs, pos := 1, line := 1, tokens := [], errors := [] }
      (by simp) (by intro i h hle; exact hnq i h hle)
    have hloop : scan_tokens_loop
        { source := '"' :: c :: cs, pos := 0, line := 1, tokens := [], errors := [] } =
        { source := '"' :: c :: cs,
          pos := ('"' :: c :: cs : List Char).length + 1,
          line := 1,
          tokens := [Token.new (.Str (String.mk
            ((('"' :: c :: cs : List Char).drop 1).take
              (('"' :: c :: cs : List Char).length - 1)))) 1],
          errors := [] } := by
      unfold scan_tokens_loop
      show scan_tokens_go (cs.length + 1 + 1)
        { source := '"' :: c :: cs, pos := 0, line := 1, tokens := [], errors := [] } = _
      unfold scan_tokens_go
      dsimp only
      rw [if_pos (by simp)]
      rw [scan_token_quote
        { source := '"' :: c :: cs, pos := 0, line := 1, tokens := [], errors := [] } rfl]
      rw [hstring]
      dsimp only
      simp only [List.nil_append]
      unfold scan_tokens_go
      dsimp only
      rw [if_neg (by omega)]
    unfold scan scan_tokens
    rw [hloop]
    dsimp only [ScanState.add_token]
    rw [if_pos rfl]
    have hcontent : ((('"' :: c :: cs : List Char)).drop 1).take
        (('"' :: c :: cs : List Char).length - 1) = c :: cs := by
      show (c :: cs : List Char).take (cs.length + 1) = c :: cs
      rw [List.take_succ_cons, List.take_length]
    rw [hcontent]
    rfl

/-- Witness for C9 at a concrete input: scanning `"ab` (opening quote never
closed) yields the Str token `ab` and the final Eof, with no error. -/
theorem unterminated_string_scan_witness :
    scan ['"', 'a', 'b'] = .ok [Token.new (.Str "ab") 1, Token.new .Eof 1] :=
  unterminated_string_scan ['a', 'b'] (by decide)
